import Mathlib

/-!
Shallow embedding of the servoscheduler scheduling engine.

The actuator mutators are translated from `src/actuator.rs`.  The date/time
primitives (`time.rs`), the `TimeSlot`/`TimePeriod` collaborators
(`time_slot.rs`) and the rpc error enums are not among the given sources, so
they are modelled from the specification; each such definition carries a
doc comment saying so.  Rust `u32` identifiers and counters are modelled as
`Nat`, `f64` as `ℚ`, and the key-ordered `BTreeMap` as an association list
with pairwise-distinct keys.  Every mutator returns the post-call actuator
together with the `Result`, mirroring the in-place mutation points of the
Rust code.
-/

namespace Servo

/-- Modelled from the spec: the time-of-day primitive of the external
time-primitives library (file `time.rs`, absent from the sources): an
ordered type with an empty sentinel value.  Times are minute counts shifted
so that `0` is the sentinel. -/
abbrev Time := Nat

/-- Modelled from the spec: the `Time::EMPTY` sentinel. -/
def Time.EMPTY : Time := 0

/-- Modelled from the spec: the calendar-date primitive: an ordered type
with an empty sentinel value.  Dates are day indices with `0` the sentinel. -/
abbrev Date := Nat

/-- Modelled from the spec: the `Date::empty_date()` sentinel. -/
def Date.empty_date : Date := 0

/-- Modelled from the spec: a start/end time-of-day interval (the `end`
field is renamed `stop`, `end` being a Lean keyword). -/
structure TimeInterval where
  start : Time
  stop : Time
deriving DecidableEq

/-- Modelled from the spec: a start/end date range (inclusive). -/
structure DateRange where
  start : Date
  stop : Date
deriving DecidableEq

/-- Modelled from the spec: well-formedness of a time interval: both
endpoints are real (non-sentinel) times and the interval runs forward. -/
def TimeInterval.valid (i : TimeInterval) : Bool :=
  decide (i.start ≠ Time.EMPTY ∧ i.stop ≠ Time.EMPTY ∧ i.start < i.stop)

/-- Modelled from the spec: well-formedness of a date range: both endpoints
are real (non-sentinel) dates and the range runs forward (a single-day
range is allowed). -/
def DateRange.valid (r : DateRange) : Bool :=
  decide (r.start ≠ Date.empty_date ∧ r.stop ≠ Date.empty_date ∧ r.start ≤ r.stop)

/-- Modelled from the spec (rule 4.1): intersection of two time-of-day
intervals. -/
def TimeInterval.intersects (a b : TimeInterval) : Bool :=
  decide (a.start < b.stop ∧ b.start < a.stop)

/-- Modelled from the spec (rule 4.1): intersection of two inclusive date
ranges. -/
def DateRange.intersects (a b : DateRange) : Bool :=
  decide (a.start ≤ b.stop ∧ b.start ≤ a.stop)

/-- Modelled from the spec (§2, §3): a recurring rule: a time-of-day
interval × a date range × a weekday set. -/
structure TimePeriod where
  time_interval : TimeInterval
  date_range : DateRange
  days : Finset (Fin 7)
deriving DecidableEq

/-- Modelled from the spec (§3): `TimePeriod` validity: the interval and
the range are each well-formed; the weekday set may be empty. -/
def TimePeriod.valid (tp : TimePeriod) : Bool :=
  tp.time_interval.valid && tp.date_range.valid

/-- Modelled from the spec (§4.4): date-only overlap of two periods: the
date ranges intersect and the weekday sets intersect; time-of-day is
ignored. -/
def TimePeriod.overlaps_dates (a b : TimePeriod) : Bool :=
  a.date_range.intersects b.date_range && decide ((a.days ∩ b.days).Nonempty)

/-- Modelled from the spec (rule 4.1): full overlap of two periods: date
ranges intersect AND weekday sets intersect AND time-of-day intervals
intersect. -/
def TimePeriod.overlaps (a b : TimePeriod) : Bool :=
  a.overlaps_dates b && a.time_interval.intersects b.time_interval

/-- `ActuatorType` from `actuator.rs` (lines 16–20); `f64` is modelled as
`ℚ`. -/
inductive ActuatorType where
  | Toggle : ActuatorType
  | FloatValue (min max : Rat) : ActuatorType
deriving DecidableEq

/-- `ActuatorState` from `actuator.rs` (lines 31–35); `f64` is modelled as
`ℚ`. -/
inductive ActuatorState where
  | Toggle (value : Bool) : ActuatorState
  | FloatValue (value : Rat) : ActuatorState
deriving DecidableEq

/-- Stand-in for Rust's `Display` rendering of an `f64` value. -/
def floatRepr (v : Rat) : String := toString v

/-- `impl Display for ActuatorType` (`actuator.rs` lines 22–29). -/
def ActuatorType.display : ActuatorType → String
  | ActuatorType.Toggle => "Toggle"
  | ActuatorType.FloatValue min max =>
      "Float [" ++ floatRepr min ++ ", " ++ floatRepr max ++ "]"

/-- `impl Display for ActuatorState` (`actuator.rs` lines 37–44).  The
`false` branch renders with a trailing space, exactly as in the source. -/
def ActuatorState.display : ActuatorState → String
  | ActuatorState.Toggle value => if value then "On" else "Off "
  | ActuatorState.FloatValue value => floatRepr value

/-- `ActuatorInfo` from `actuator.rs` (lines 58–62). -/
structure ActuatorInfo where
  name : String
  actuator_type : ActuatorType
deriving DecidableEq

/-- `impl ValidCheck for ActuatorInfo` (`actuator.rs` lines 64–71). -/
def ActuatorInfo.valid (info : ActuatorInfo) : Bool :=
  match info.actuator_type with
  | ActuatorType.Toggle => true
  | ActuatorType.FloatValue min max => decide (min < max)

/-- Modelled from the spec (§7): the argument tags of `rpc::InvalArgError`
(the rpc error enums are declared outside the given sources). -/
inductive InvalArgError where
  | ActuatorId : InvalArgError
  | ActuatorState : InvalArgError
  | TimePeriod : InvalArgError
  | TimeSlotId : InvalArgError
  | TimeOverrideId : InvalArgError
deriving DecidableEq

/-- Modelled from the spec (§7): `rpc::Error`. -/
inductive RpcError where
  | InvalidArgument (e : InvalArgError) : RpcError
  | TimeSlotOverlap (id : Nat) : RpcError
  | TimeOverrideOverlap (id : Nat) : RpcError
deriving DecidableEq

/-- Association-list lookup, modelling `BTreeMap::get`. -/
def lookupKey {α : Type} (k : Nat) : List (Nat × α) → Option α
  | [] => none
  | (k2, v) :: rest => if k2 = k then some v else lookupKey k rest

/-- Association-list deletion, modelling `BTreeMap::remove` (removes the
entry with the given key; a no-op when the key is absent). -/
def eraseKey {α : Type} (k : Nat) : List (Nat × α) → List (Nat × α)
  | [] => []
  | (k2, v) :: rest => if k2 = k then rest else (k2, v) :: eraseKey k rest

/-- Key-ordered association-list insertion, modelling `BTreeMap::insert`. -/
def insertKey {α : Type} (k : Nat) (v : α) : List (Nat × α) → List (Nat × α)
  | [] => [(k, v)]
  | (k2, v2) :: rest =>
    if k < k2 then (k, v) :: (k2, v2) :: rest
    else if k = k2 then (k, v) :: rest
    else (k2, v2) :: insertKey k v rest

/-- In-place update of the value stored at a key, modelling mutation
through a `&mut` reference obtained from the map. -/
def updateKey {α : Type} (k : Nat) (f : α → α) : List (Nat × α) → List (Nat × α)
  | [] => []
  | (k2, v) :: rest => if k2 = k then (k2, f v) :: rest else (k2, v) :: updateKey k f rest

/-- A `BTreeMap` carries each key at most once; the association lists of
the embedding satisfy the same property. -/
abbrev keysNodup {α : Type} (l : List (Nat × α)) : Prop := (l.map Prod.fst).Nodup

/-- `TimeSlot` (file `time_slot.rs`, absent from the sources), modelled
from the spec §3: enabled flag, target state, base period, and the
override map `time_override`. -/
structure TimeSlot where
  enabled : Bool
  actuator_state : ActuatorState
  time_period : TimePeriod
  time_override : List (Nat × TimePeriod)
deriving DecidableEq

/-- Modelled from the spec: `TimeSlot::new` — a fresh slot starts with no
overrides. -/
def TimeSlot.new (enabled : Bool) (actuator_state : ActuatorState)
    (time_period : TimePeriod) : TimeSlot :=
  ⟨enabled, actuator_state, time_period, []⟩

/-- Modelled from the spec (rule 4.1): `TimeSlot::overlaps` checks a
candidate period against the slot's base period. -/
def TimeSlot.overlaps (ts : TimeSlot) (tp : TimePeriod) : Bool :=
  ts.time_period.overlaps tp

/-- `Actuator` from `actuator.rs` (lines 73–82).  The two id counters are
`u32` in the source: they are modelled as `Nat` values whose increments
are taken modulo `2^32 = 4294967296`, the wrap-around semantics of `+= 1`
on `u32` in release builds. -/
structure Actuator where
  info : ActuatorInfo
  timeslots : List (Nat × TimeSlot)
  default_state : ActuatorState
  next_timeslot_id : Nat
  next_override_id : Nat
deriving DecidableEq

/-- `Actuator::new` (`actuator.rs` lines 86–96), without the lock wrapper. -/
def Actuator.new (info : ActuatorInfo) (default_state : ActuatorState) : Actuator :=
  ⟨info, [], default_state, 0, 0⟩

/-- Well-formedness inherited from `BTreeMap`: the slot keys are pairwise
distinct. -/
abbrev Actuator.wf (a : Actuator) : Prop := keysNodup a.timeslots

/-- `Actuator::valid_state` (`actuator.rs` lines 272–283). -/
def Actuator.valid_state (a : Actuator) (state : ActuatorState) : Bool :=
  match a.info.actuator_type with
  | ActuatorType.Toggle =>
    match state with
    | ActuatorState.Toggle _ => true
    | _ => false
  | ActuatorType.FloatValue min max =>
    match state with
    | ActuatorState.FloatValue value => decide (min ≤ value) && decide (value ≤ max)
    | _ => false

/-- `impl ValidCheck for Actuator` (`actuator.rs` lines 286–290). -/
def Actuator.valid (a : Actuator) : Bool :=
  a.info.valid && a.valid_state a.default_state

/-- `Actuator::set_default_state` (`actuator.rs` lines 106–113). -/
def Actuator.set_default_state (a : Actuator) (default_state : ActuatorState) :
    Actuator × Except RpcError Unit :=
  if !a.valid_state default_state then
    (a, Except.error (RpcError.InvalidArgument InvalArgError.ActuatorState))
  else
    ({a with default_state := default_state}, Except.ok ())

/-- The overlap scan of `add_time_slot` (`actuator.rs` lines 127–132):
return the first slot id whose base period overlaps the candidate. -/
def findOverlap (tp : TimePeriod) : List (Nat × TimeSlot) → Option Nat
  | [] => none
  | (id, ts) :: rest => if ts.overlaps tp then some id else findOverlap tp rest

/-- `Actuator::add_time_slot` (`actuator.rs` lines 115–142).  The counter
increment `self.next_timeslot_id += 1` is on a `u32` and wraps modulo
`2^32` on overflow. -/
def Actuator.add_time_slot (a : Actuator) (time_period : TimePeriod)
    (actuator_state : ActuatorState) (enabled : Bool) :
    Actuator × Except RpcError Nat :=
  if !time_period.valid then
    (a, Except.error (RpcError.InvalidArgument InvalArgError.TimePeriod))
  else if !a.valid_state actuator_state then
    (a, Except.error (RpcError.InvalidArgument InvalArgError.ActuatorState))
  else
    match findOverlap time_period a.timeslots with
    | some id => (a, Except.error (RpcError.TimeSlotOverlap id))
    | none =>
      let id := a.next_timeslot_id
      ({a with
          timeslots := (insertKey id (TimeSlot.new enabled actuator_state time_period) a.timeslots),
          next_timeslot_id := ((id + 1) % 4294967296)},
       Except.ok id)

/-- `Actuator::remove_time_slot` (`actuator.rs` lines 144–150): the map is
mutated first (`remove` of an absent key is a no-op), then the removed
value decides the result. -/
def Actuator.remove_time_slot (a : Actuator) (time_slot_id : Nat) :
    Actuator × Except RpcError Unit :=
  let a2 := {a with timeslots := eraseKey time_slot_id a.timeslots}
  if (lookupKey time_slot_id a.timeslots).isSome then (a2, Except.ok ())
  else (a2, Except.error (RpcError.InvalidArgument InvalArgError.TimeSlotId))

/-- The single scan of `time_slot_set_time_period` (`actuator.rs` lines
154–166): walk the map in key order; a matching id records the target
slot and the scan continues; the first *other* slot overlapping the
caller-supplied period aborts the scan with `TimeSlotOverlap`. -/
def setPeriodScan (time_slot_id : Nat) (tp : TimePeriod)
    (acc : Except RpcError TimeSlot) :
    List (Nat × TimeSlot) → Except RpcError TimeSlot
  | [] => acc
  | (id, ts) :: rest =>
    if id = time_slot_id then setPeriodScan time_slot_id tp (Except.ok ts) rest
    else if ts.overlaps tp then Except.error (RpcError.TimeSlotOverlap id)
    else setPeriodScan time_slot_id tp acc rest

/-- The partial-update merge of `time_slot_set_time_period`
(`actuator.rs` lines 170–187): each non-sentinel field of `tp` replaces
the corresponding field of `old`. -/
def mergePeriod (old tp : TimePeriod) : TimePeriod where
  time_interval :=
    { start := if tp.time_interval.start ≠ Time.EMPTY then tp.time_interval.start
               else old.time_interval.start
      stop := if tp.time_interval.stop ≠ Time.EMPTY then tp.time_interval.stop
              else old.time_interval.stop }
  date_range :=
    { start := if tp.date_range.start ≠ Date.empty_date then tp.date_range.start
               else old.date_range.start
      stop := if tp.date_range.stop ≠ Date.empty_date then tp.date_range.stop
              else old.date_range.stop }
  days := if tp.days ≠ ∅ then tp.days else old.days

/-- `Actuator::time_slot_set_time_period` (`actuator.rs` lines 152–197). -/
def Actuator.time_slot_set_time_period (a : Actuator) (time_slot_id : Nat)
    (time_period : TimePeriod) : Actuator × Except RpcError Unit :=
  match setPeriodScan time_slot_id time_period
      (Except.error (RpcError.InvalidArgument InvalArgError.TimeSlotId)) a.timeslots with
  | Except.error e => (a, Except.error e)
  | Except.ok ts =>
    let new_time_period := mergePeriod ts.time_period time_period
    if !new_time_period.valid then
      (a, Except.error (RpcError.InvalidArgument InvalArgError.TimePeriod))
    else
      ({a with timeslots :=
          (updateKey time_slot_id (fun t => {t with time_period := new_time_period}) a.timeslots)},
       Except.ok ())

/-- `Actuator::time_slot_set_enabled` (`actuator.rs` lines 199–206). -/
def Actuator.time_slot_set_enabled (a : Actuator) (time_slot_id : Nat)
    (enabled : Bool) : Actuator × Except RpcError Unit :=
  match lookupKey time_slot_id a.timeslots with
  | none => (a, Except.error (RpcError.InvalidArgument InvalArgError.TimeSlotId))
  | some _ =>
    ({a with timeslots := (updateKey time_slot_id (fun t => {t with enabled := enabled}) a.timeslots)},
     Except.ok ())

/-- `Actuator::time_slot_set_actuator_state` (`actuator.rs` lines 208–219). -/
def Actuator.time_slot_set_actuator_state (a : Actuator) (time_slot_id : Nat)
    (actuator_state : ActuatorState) : Actuator × Except RpcError Unit :=
  if !a.valid_state actuator_state then
    (a, Except.error (RpcError.InvalidArgument InvalArgError.ActuatorState))
  else
    match lookupKey time_slot_id a.timeslots with
    | none => (a, Except.error (RpcError.InvalidArgument InvalArgError.TimeSlotId))
    | some _ =>
      ({a with timeslots :=
          (updateKey time_slot_id (fun t => {t with actuator_state := actuator_state}) a.timeslots)},
       Except.ok ())

/-- The slot scan of `time_slot_add_time_override` (`actuator.rs` lines
227–238): a matching id records the target slot; the first *other* slot
overlapping the candidate aborts with `TimeSlotOverlap`. -/
def addOverrideScan (time_slot_id : Nat) (tp : TimePeriod)
    (acc : Option TimeSlot) :
    List (Nat × TimeSlot) → Except RpcError (Option TimeSlot)
  | [] => Except.ok acc
  | (id, ts) :: rest =>
    if id = time_slot_id then addOverrideScan time_slot_id tp (some ts) rest
    else if ts.overlaps tp then Except.error (RpcError.TimeSlotOverlap id)
    else addOverrideScan time_slot_id tp acc rest

/-- The override scan of `time_slot_add_time_override` (`actuator.rs`
lines 243–247): the first existing override with a date-only overlap
against the candidate. -/
def findDateOverlap (tp : TimePeriod) : List (Nat × TimePeriod) → Option Nat
  | [] => none
  | (id, op) :: rest => if op.overlaps_dates tp then some id else findDateOverlap tp rest

/-- `Actuator::time_slot_add_time_override` (`actuator.rs` lines 221–258).
The counter increment `self.next_override_id += 1` is on a `u32` and
wraps modulo `2^32` on overflow. -/
def Actuator.time_slot_add_time_override (a : Actuator) (time_slot_id : Nat)
    (time_period : TimePeriod) : Actuator × Except RpcError Nat :=
  if !time_period.valid then
    (a, Except.error (RpcError.InvalidArgument InvalArgError.TimePeriod))
  else
    match addOverrideScan time_slot_id time_period none a.timeslots with
    | Except.error e => (a, Except.error e)
    | Except.ok none => (a, Except.error (RpcError.InvalidArgument InvalArgError.TimeSlotId))
    | Except.ok (some ts) =>
      match findDateOverlap time_period ts.time_override with
      | some oid => (a, Except.error (RpcError.TimeOverrideOverlap oid))
      | none =>
        let oid := a.next_override_id
        ({a with
            timeslots := (updateKey time_slot_id
              (fun t => {t with time_override := insertKey oid time_period t.time_override})
              a.timeslots),
            next_override_id := ((oid + 1) % 4294967296)},
         Except.ok oid)

/-- `Actuator::time_slot_remove_time_override` (`actuator.rs` lines
260–270): the override map of the target slot is mutated first, then the
removed value decides the result. -/
def Actuator.time_slot_remove_time_override (a : Actuator) (time_slot_id : Nat)
    (time_override_id : Nat) : Actuator × Except RpcError Unit :=
  match lookupKey time_slot_id a.timeslots with
  | none => (a, Except.error (RpcError.InvalidArgument InvalArgError.TimeSlotId))
  | some ts =>
    let a2 := {a with timeslots :=
      (updateKey time_slot_id
        (fun t => {t with time_override := eraseKey time_override_id t.time_override})
        a.timeslots)}
    if (lookupKey time_override_id ts.time_override).isSome then (a2, Except.ok ())
    else (a2, Except.error (RpcError.InvalidArgument InvalArgError.TimeOverrideId))

/-- The id-counter invariant of an actuator (spec §3, §9): every slot key
is below `next_timeslot_id` and every override key of every slot is below
`next_override_id`. -/
abbrev Actuator.counterInv (a : Actuator) : Prop :=
  (∀ p ∈ a.timeslots, p.1 < a.next_timeslot_id) ∧
  (∀ p ∈ a.timeslots, ∀ q ∈ p.2.time_override, q.1 < a.next_override_id)

/-- The all-sentinel partial period: every field holds its empty value. -/
def sentinelPeriod : TimePeriod :=
  ⟨⟨Time.EMPTY, Time.EMPTY⟩, ⟨Date.empty_date, Date.empty_date⟩, ∅⟩

/-- Recognizer for a `TimeOverrideOverlap` outcome. -/
def isOverrideOverlapErr : Except RpcError Nat → Bool
  | Except.error (RpcError.TimeOverrideOverlap _) => true
  | _ => false

/-- A toggle actuator's metadata, used in concrete instances. -/
def infoT : ActuatorInfo := ⟨"servo", ActuatorType.Toggle⟩

/-- A bounded-float actuator's metadata, used in concrete instances. -/
def infoF : ActuatorInfo := ⟨"heater", ActuatorType.FloatValue 0 100⟩

/-- A concrete toggle state. -/
def stOn : ActuatorState := ActuatorState.Toggle true

/-- Concrete period: 08:00–10:00, days 1–31, weekday 1. -/
def periodA : TimePeriod := ⟨⟨480, 600⟩, ⟨1, 31⟩, {1}⟩

/-- Concrete period: 11:40–13:20, days 1–31, weekday 1 (time-disjoint from
`periodA`). -/
def periodB : TimePeriod := ⟨⟨700, 800⟩, ⟨1, 31⟩, {1}⟩

/-- Concrete period: 08:00–10:00, days 1–31, weekday 6 (weekday-disjoint
from `periodA`). -/
def periodD : TimePeriod := ⟨⟨480, 600⟩, ⟨1, 31⟩, {6}⟩

/-- Slot carrying `periodA`. -/
def slotA : TimeSlot := TimeSlot.new true stOn periodA

/-- Slot carrying `periodB`. -/
def slotB : TimeSlot := TimeSlot.new true stOn periodB

/-- Concrete actuator holding `slotA` and `slotB`. -/
def actAB : Actuator := ⟨infoT, [(0, slotA), (1, slotB)], stOn, 2, 0⟩

/-- Concrete actuator holding only `slotA`. -/
def act1 : Actuator := ⟨infoT, [(0, slotA)], stOn, 1, 0⟩

/-- A partial period that specifies only a time interval (the one of
`periodA`); its date range and weekday set are the sentinels. -/
def partialToA : TimePeriod := ⟨⟨480, 600⟩, ⟨0, 0⟩, ∅⟩

/-- Concrete period: 08:00–10:00, days 32–60, weekday 1 (date-disjoint from
`periodA`). -/
def periodC : TimePeriod := ⟨⟨480, 600⟩, ⟨32, 60⟩, {1}⟩

/-- Concrete override period: 01:40–03:20, days 32–40, weekday 1. -/
def ovC : TimePeriod := ⟨⟨100, 200⟩, ⟨32, 40⟩, {1}⟩

/-- Slot carrying `periodC` with the single override `(5, ovC)`. -/
def slotC : TimeSlot := ⟨true, stOn, periodC, [(5, ovC)]⟩

/-- Concrete actuator holding `slotA` and `slotC`. -/
def actC4 : Actuator := ⟨infoT, [(0, slotA), (1, slotC)], stOn, 2, 6⟩

/-- Candidate period overlapping `periodA` (rule 4.1) and date-overlapping
`ovC` while being time-disjoint from `ovC`. -/
def tpX : TimePeriod := ⟨⟨480, 600⟩, ⟨1, 40⟩, {1}⟩

/-- Concrete actuator holding only `slotC` (no competing slot). -/
def actCsolo : Actuator := ⟨infoT, [(1, slotC)], stOn, 2, 6⟩

/-- One add/remove round trip through the API: add `periodA` as a slot
and, when the add succeeds, remove the slot just created.  On an actuator
with no slots this always succeeds and leaves the slot map empty while
consuming one timeslot id. -/
def addRemoveCycle (a : Actuator) : Actuator :=
  match a.add_time_slot periodA stOn true with
  | (a2, Except.ok i) => (a2.remove_time_slot i).1
  | (a2, Except.error _) => a2

/-- `n` consecutive add/remove round trips starting from a fresh toggle
actuator — a sequence of API calls, so every intermediate state is
reachable. -/
def addRemoveIter : Nat → Actuator
  | 0 => Actuator.new infoT stOn
  | n + 1 => addRemoveCycle (addRemoveIter n)

theorem lookupKey_mem {α : Type} {k : Nat} {v : α} {l : List (Nat × α)}
    (h : lookupKey k l = some v) : (k, v) ∈ l := by
  induction l with
  | nil => simp [lookupKey] at h
  | cons p rest ih =>
    obtain ⟨k2, w⟩ := p
    by_cases hk : k2 = k
    · subst hk
      simp [lookupKey] at h
      subst h
      exact List.mem_cons_self _ _
    · simp only [lookupKey, if_neg hk] at h
      exact List.mem_cons_of_mem _ (ih h)

theorem lookup_none_forall {α : Type} {k : Nat} {l : List (Nat × α)}
    (h : lookupKey k l = none) : ∀ p ∈ l, p.1 ≠ k := by
  induction l with
  | nil => intro p hp; simp at hp
  | cons q rest ih =>
    obtain ⟨k2, w⟩ := q
    by_cases hk : k2 = k
    · subst hk; simp [lookupKey] at h
    · simp only [lookupKey, if_neg hk] at h
      intro p hp
      rcases List.mem_cons.mp hp with hp | hp
      · subst hp; exact hk
      · exact ih h p hp

theorem forall_ne_lookup_none {α : Type} {k : Nat} {l : List (Nat × α)}
    (h : ∀ p ∈ l, p.1 ≠ k) : lookupKey k l = none := by
  induction l with
  | nil => rfl
  | cons q rest ih =>
    obtain ⟨k2, w⟩ := q
    have hk : k2 ≠ k := h (k2, w) (List.mem_cons_self _ _)
    simp only [lookupKey, if_neg hk]
    exact ih (fun p hp => h p (List.mem_cons_of_mem _ hp))

theorem eraseKey_of_lookup_none {α : Type} {k : Nat} {l : List (Nat × α)}
    (h : lookupKey k l = none) : eraseKey k l = l := by
  induction l with
  | nil => rfl
  | cons q rest ih =>
    obtain ⟨k2, w⟩ := q
    by_cases hk : k2 = k
    · subst hk; simp [lookupKey] at h
    · simp only [lookupKey, if_neg hk] at h
      simp only [eraseKey, if_neg hk]
      rw [ih h]

theorem eraseKey_mem {α : Type} {k : Nat} {p : Nat × α} {l : List (Nat × α)}
    (h : p ∈ eraseKey k l) : p ∈ l := by
  induction l with
  | nil => simp [eraseKey] at h
  | cons q rest ih =>
    obtain ⟨k2, w⟩ := q
    by_cases hk : k2 = k
    · simp only [eraseKey, if_pos hk] at h
      exact List.mem_cons_of_mem _ h
    · simp only [eraseKey, if_neg hk] at h
      rcases List.mem_cons.mp h with hp | hp
      · subst hp; exact List.mem_cons_self _ _
      · exact List.mem_cons_of_mem _ (ih hp)

theorem insertKey_mem {α : Type} {k : Nat} {v : α} {p : Nat × α} {l : List (Nat × α)}
    (h : p ∈ insertKey k v l) : p = (k, v) ∨ p ∈ l := by
  induction l with
  | nil => simp [insertKey] at h; exact Or.inl h
  | cons q rest ih =>
    obtain ⟨k2, w⟩ := q
    by_cases h1 : k < k2
    · simp only [insertKey, if_pos h1] at h
      rcases List.mem_cons.mp h with hp | hp
      · exact Or.inl hp
      · exact Or.inr hp
    · by_cases h2 : k = k2
      · simp only [insertKey, if_neg h1, if_pos h2] at h
        rcases List.mem_cons.mp h with hp | hp
        · exact Or.inl hp
        · exact Or.inr (List.mem_cons_of_mem _ hp)
      · simp only [insertKey, if_neg h1, if_neg h2] at h
        rcases List.mem_cons.mp h with hp | hp
        · exact Or.inr (by subst hp; exact List.mem_cons_self _ _)
        · rcases ih hp with hp2 | hp2
          · exact Or.inl hp2
          · exact Or.inr (List.mem_cons_of_mem _ hp2)

theorem updateKey_mem {α : Type} {k : Nat} {f : α → α} {p : Nat × α} {l : List (Nat × α)}
    (h : p ∈ updateKey k f l) : (∃ w, (k, w) ∈ l ∧ p = (k, f w)) ∨ p ∈ l := by
  induction l with
  | nil => simp [updateKey] at h
  | cons q rest ih =>
    obtain ⟨k2, w⟩ := q
    by_cases hk : k2 = k
    · subst hk
      simp only [updateKey, if_pos rfl] at h
      rcases List.mem_cons.mp h with hp | hp
      · exact Or.inl ⟨w, List.mem_cons_self _ _, hp⟩
      · exact Or.inr (List.mem_cons_of_mem _ hp)
    · simp only [updateKey, if_neg hk] at h
      rcases List.mem_cons.mp h with hp | hp
      · exact Or.inr (by subst hp; exact List.mem_cons_self _ _)
      · rcases ih hp with ⟨w2, hw2, hp2⟩ | hp2
        · exact Or.inl ⟨w2, List.mem_cons_of_mem _ hw2, hp2⟩
        · exact Or.inr (List.mem_cons_of_mem _ hp2)

theorem updateKey_self {α : Type} {k : Nat} {f : α → α} {v : α} {l : List (Nat × α)}
    (h : lookupKey k l = some v) (hf : f v = v) : updateKey k f l = l := by
  induction l with
  | nil => rfl
  | cons q rest ih =>
    obtain ⟨k2, w⟩ := q
    by_cases hk : k2 = k
    · subst hk
      simp [lookupKey] at h
      subst h
      simp [updateKey, hf]
    · simp only [lookupKey, if_neg hk] at h
      simp only [updateKey, if_neg hk]
      rw [ih h]

theorem findOverlap_eq_none_iff {tp : TimePeriod} {l : List (Nat × TimeSlot)} :
    findOverlap tp l = none ↔ ∀ p ∈ l, p.2.overlaps tp = false := by
  induction l with
  | nil => simp [findOverlap]
  | cons q rest ih =>
    obtain ⟨k, ts⟩ := q
    cases hov : ts.overlaps tp with
    | true => simp [findOverlap, hov]
    | false => simp [findOverlap, hov, ih]

theorem findOverlap_eq_some_mem {tp : TimePeriod} {l : List (Nat × TimeSlot)} {j : Nat}
    (h : findOverlap tp l = some j) : ∃ ts, (j, ts) ∈ l ∧ ts.overlaps tp = true := by
  induction l with
  | nil => simp [findOverlap] at h
  | cons q rest ih =>
    obtain ⟨k, ts⟩ := q
    cases hov : ts.overlaps tp with
    | true =>
      simp [findOverlap, hov] at h
      subst h
      exact ⟨ts, List.mem_cons_self _ _, hov⟩
    | false =>
      simp [findOverlap, hov] at h
      obtain ⟨ts2, hmem, hov2⟩ := ih h
      exact ⟨ts2, List.mem_cons_of_mem _ hmem, hov2⟩

theorem findDateOverlap_eq_none_iff {tp : TimePeriod} {l : List (Nat × TimePeriod)} :
    findDateOverlap tp l = none ↔ ∀ q ∈ l, q.2.overlaps_dates tp = false := by
  induction l with
  | nil => simp [findDateOverlap]
  | cons q rest ih =>
    obtain ⟨k, op⟩ := q
    cases hov : op.overlaps_dates tp with
    | true => simp [findDateOverlap, hov]
    | false => simp [findDateOverlap, hov, ih]

theorem findDateOverlap_eq_some_mem {tp : TimePeriod} {l : List (Nat × TimePeriod)} {j : Nat}
    (h : findDateOverlap tp l = some j) :
    ∃ op, (j, op) ∈ l ∧ op.overlaps_dates tp = true := by
  induction l with
  | nil => simp [findDateOverlap] at h
  | cons q rest ih =>
    obtain ⟨k, op⟩ := q
    cases hov : op.overlaps_dates tp with
    | true =>
      simp [findDateOverlap, hov] at h
      subst h
      exact ⟨op, List.mem_cons_self _ _, hov⟩
    | false =>
      simp [findDateOverlap, hov] at h
      obtain ⟨op2, hmem, hov2⟩ := ih h
      exact ⟨op2, List.mem_cons_of_mem _ hmem, hov2⟩

theorem setPeriodScan_no_hit {tsid : Nat} {tp : TimePeriod} {l : List (Nat × TimeSlot)}
    (h : ∀ p ∈ l, p.1 ≠ tsid ∧ p.2.overlaps tp = false) (acc : Except RpcError TimeSlot) :
    setPeriodScan tsid tp acc l = acc := by
  induction l generalizing acc with
  | nil => rfl
  | cons q rest ih =>
    obtain ⟨k, ts⟩ := q
    obtain ⟨hk, hov⟩ := h (k, ts) (List.mem_cons_self _ _)
    simp only [setPeriodScan, if_neg hk, hov]
    simp only [Bool.false_eq_true, if_false]
    exact ih (fun p hp => h p (List.mem_cons_of_mem _ hp)) acc

theorem setPeriodScan_ok {tsid : Nat} {tp : TimePeriod} {l : List (Nat × TimeSlot)}
    {ts : TimeSlot} (hnd : keysNodup l) (hlk : lookupKey tsid l = some ts)
    (hov : ∀ p ∈ l, p.1 ≠ tsid → p.2.overlaps tp = false) (acc : Except RpcError TimeSlot) :
    setPeriodScan tsid tp acc l = Except.ok ts := by
  induction l generalizing acc with
  | nil => simp [lookupKey] at hlk
  | cons q rest ih =>
    obtain ⟨k, v⟩ := q
    by_cases hk : k = tsid
    · subst hk
      simp [lookupKey] at hlk
      subst hlk
      simp only [setPeriodScan, if_pos rfl]
      have hout : ∀ p ∈ rest, p.1 ≠ k ∧ p.2.overlaps tp = false := by
        intro p hp
        have hne : p.1 ≠ k := by
          intro hcontra
          have := hnd
          simp only [keysNodup, List.map_cons, List.nodup_cons] at this
          exact this.1 (hcontra ▸ List.mem_map_of_mem Prod.fst hp)
        exact ⟨hne, hov p (List.mem_cons_of_mem _ hp) hne⟩
      exact setPeriodScan_no_hit hout _
    · have hk2 : k ≠ tsid := hk
      simp only [lookupKey, if_neg (fun h => hk h)] at hlk
      have hovk : TimeSlot.overlaps v tp = false := hov (k, v) (List.mem_cons_self _ _) hk2
      simp only [setPeriodScan, if_neg hk2, hovk]
      simp only [Bool.false_eq_true, if_false]
      have hnd2 : keysNodup rest := by
        simp only [keysNodup, List.map_cons, List.nodup_cons] at hnd
        exact hnd.2
      exact ih hnd2 hlk (fun p hp hne => hov p (List.mem_cons_of_mem _ hp) hne) acc

theorem setPeriodScan_error_of_overlap {tsid : Nat} {tp : TimePeriod}
    {l : List (Nat × TimeSlot)}
    (h : ∃ p ∈ l, p.1 ≠ tsid ∧ p.2.overlaps tp = true) (acc : Except RpcError TimeSlot) :
    ∃ cid ts2, setPeriodScan tsid tp acc l = Except.error (RpcError.TimeSlotOverlap cid) ∧
      (cid, ts2) ∈ l ∧ cid ≠ tsid ∧ ts2.overlaps tp = true := by
  induction l generalizing acc with
  | nil => simp at h
  | cons q rest ih =>
    obtain ⟨k, v⟩ := q
    by_cases hk : k = tsid
    · subst hk
      have hrest : ∃ p ∈ rest, p.1 ≠ k ∧ p.2.overlaps tp = true := by
        obtain ⟨p, hp, hne, hovp⟩ := h
        rcases List.mem_cons.mp hp with hp | hp
        · exact absurd (by rw [hp]) hne
        · exact ⟨p, hp, hne, hovp⟩
      simp only [setPeriodScan, if_pos rfl]
      obtain ⟨cid, ts2, hscan, hmem, hne2, hov2⟩ := ih hrest (Except.ok v)
      exact ⟨cid, ts2, hscan, List.mem_cons_of_mem _ hmem, hne2, hov2⟩
    · cases hovk : v.overlaps tp with
      | true =>
        refine ⟨k, v, ?_, List.mem_cons_self _ _, hk, hovk⟩
        simp only [setPeriodScan, if_neg hk, hovk]
        simp
      | false =>
        have hrest : ∃ p ∈ rest, p.1 ≠ tsid ∧ p.2.overlaps tp = true := by
          obtain ⟨p, hp, hne, hovp⟩ := h
          rcases List.mem_cons.mp hp with hp | hp
          · rw [hp] at hovp; simp [hovp] at hovk
          · exact ⟨p, hp, hne, hovp⟩
        simp only [setPeriodScan, if_neg hk, hovk]
        simp only [Bool.false_eq_true, if_false]
        obtain ⟨cid, ts2, hscan, hmem, hne2, hov2⟩ := ih hrest acc
        exact ⟨cid, ts2, hscan, List.mem_cons_of_mem _ hmem, hne2, hov2⟩

theorem addOverrideScan_no_hit {tsid : Nat} {tp : TimePeriod} {l : List (Nat × TimeSlot)}
    (h : ∀ p ∈ l, p.1 ≠ tsid ∧ p.2.overlaps tp = false) (acc : Option TimeSlot) :
    addOverrideScan tsid tp acc l = Except.ok acc := by
  induction l generalizing acc with
  | nil => rfl
  | cons q rest ih =>
    obtain ⟨k, ts⟩ := q
    obtain ⟨hk, hov⟩ := h (k, ts) (List.mem_cons_self _ _)
    simp only [addOverrideScan, if_neg hk, hov]
    simp only [Bool.false_eq_true, if_false]
    exact ih (fun p hp => h p (List.mem_cons_of_mem _ hp)) acc

theorem addOverrideScan_ok {tsid : Nat} {tp : TimePeriod} {l : List (Nat × TimeSlot)}
    {ts : TimeSlot} (hnd : keysNodup l) (hlk : lookupKey tsid l = some ts)
    (hov : ∀ p ∈ l, p.1 ≠ tsid → p.2.overlaps tp = false) (acc : Option TimeSlot) :
    addOverrideScan tsid tp acc l = Except.ok (some ts) := by
  induction l generalizing acc with
  | nil => simp [lookupKey] at hlk
  | cons q rest ih =>
    obtain ⟨k, v⟩ := q
    by_cases hk : k = tsid
    · subst hk
      simp [lookupKey] at hlk
      subst hlk
      simp only [addOverrideScan, if_pos rfl]
      have hout : ∀ p ∈ rest, p.1 ≠ k ∧ p.2.overlaps tp = false := by
        intro p hp
        have hne : p.1 ≠ k := by
          intro hcontra
          have := hnd
          simp only [keysNodup, List.map_cons, List.nodup_cons] at this
          exact this.1 (hcontra ▸ List.mem_map_of_mem Prod.fst hp)
        exact ⟨hne, hov p (List.mem_cons_of_mem _ hp) hne⟩
      exact addOverrideScan_no_hit hout _
    · have hk2 : k ≠ tsid := hk
      simp only [lookupKey, if_neg (fun h => hk h)] at hlk
      have hovk : TimeSlot.overlaps v tp = false := hov (k, v) (List.mem_cons_self _ _) hk2
      simp only [addOverrideScan, if_neg hk2, hovk]
      simp only [Bool.false_eq_true, if_false]
      have hnd2 : keysNodup rest := by
        simp only [keysNodup, List.map_cons, List.nodup_cons] at hnd
        exact hnd.2
      exact ih hnd2 hlk (fun p hp hne => hov p (List.mem_cons_of_mem _ hp) hne) acc

theorem addOverrideScan_error_of_overlap {tsid : Nat} {tp : TimePeriod}
    {l : List (Nat × TimeSlot)}
    (h : ∃ p ∈ l, p.1 ≠ tsid ∧ p.2.overlaps tp = true) (acc : Option TimeSlot) :
    ∃ cid ts2, addOverrideScan tsid tp acc l = Except.error (RpcError.TimeSlotOverlap cid) ∧
      (cid, ts2) ∈ l ∧ cid ≠ tsid ∧ ts2.overlaps tp = true := by
  induction l generalizing acc with
  | nil => simp at h
  | cons q rest ih =>
    obtain ⟨k, v⟩ := q
    by_cases hk : k = tsid
    · subst hk
      have hrest : ∃ p ∈ rest, p.1 ≠ k ∧ p.2.overlaps tp = true := by
        obtain ⟨p, hp, hne, hovp⟩ := h
        rcases List.mem_cons.mp hp with hp | hp
        · exact absurd (by rw [hp]) hne
        · exact ⟨p, hp, hne, hovp⟩
      simp only [addOverrideScan, if_pos rfl]
      obtain ⟨cid, ts2, hscan, hmem, hne2, hov2⟩ := ih hrest (some v)
      exact ⟨cid, ts2, hscan, List.mem_cons_of_mem _ hmem, hne2, hov2⟩
    · cases hovk : v.overlaps tp with
      | true =>
        refine ⟨k, v, ?_, List.mem_cons_self _ _, hk, hovk⟩
        simp only [addOverrideScan, if_neg hk, hovk]
        simp
      | false =>
        have hrest : ∃ p ∈ rest, p.1 ≠ tsid ∧ p.2.overlaps tp = true := by
          obtain ⟨p, hp, hne, hovp⟩ := h
          rcases List.mem_cons.mp hp with hp | hp
          · rw [hp] at hovp; simp [hovp] at hovk
          · exact ⟨p, hp, hne, hovp⟩
        simp only [addOverrideScan, if_neg hk, hovk]
        simp only [Bool.false_eq_true, if_false]
        obtain ⟨cid, ts2, hscan, hmem, hne2, hov2⟩ := ih hrest acc
        exact ⟨cid, ts2, hscan, List.mem_cons_of_mem _ hmem, hne2, hov2⟩

theorem overlaps_comm (p q : TimePeriod) : p.overlaps q = q.overlaps p := by
  rw [Bool.eq_iff_iff]
  simp only [TimePeriod.overlaps, TimePeriod.overlaps_dates, TimeInterval.intersects,
    DateRange.intersects, Bool.and_eq_true, decide_eq_true_eq]
  constructor
  · rintro ⟨⟨⟨h1, h2⟩, h3⟩, h4, h5⟩
    exact ⟨⟨⟨h2, h1⟩, by rwa [Finset.inter_comm]⟩, h5, h4⟩
  · rintro ⟨⟨⟨h1, h2⟩, h3⟩, h4, h5⟩
    exact ⟨⟨⟨h2, h1⟩, by rwa [Finset.inter_comm]⟩, h5, h4⟩

theorem overlaps_dates_of_overlaps {p q : TimePeriod} (h : p.overlaps q = true) :
    p.overlaps_dates q = true := by
  simp only [TimePeriod.overlaps, Bool.and_eq_true] at h
  exact h.1

theorem overlaps_dates_time_irrel (p q : TimePeriod) (t1 t2 : TimeInterval) :
    TimePeriod.overlaps_dates ⟨t1, p.date_range, p.days⟩ ⟨t2, q.date_range, q.days⟩ =
      p.overlaps_dates q := rfl

theorem overlaps_sentinel (ts : TimeSlot) : ts.overlaps sentinelPeriod = false := by
  simp only [TimeSlot.overlaps, TimePeriod.overlaps, TimeInterval.intersects, sentinelPeriod,
    Time.EMPTY, decide_eq_true_eq]
  simp [Nat.not_lt_zero]

theorem mergePeriod_sentinel (old : TimePeriod) : mergePeriod old sentinelPeriod = old := rfl

theorem sds_err_eq (a : Actuator) (ds : ActuatorState) (e : RpcError)
    (h : (a.set_default_state ds).2 = Except.error e) : (a.set_default_state ds).1 = a := by
  unfold Actuator.set_default_state at h ⊢
  cases hb : a.valid_state ds <;> simp [hb] at h ⊢

theorem ats_err_eq (a : Actuator) (tp : TimePeriod) (st : ActuatorState) (en : Bool)
    (e : RpcError) (h : (a.add_time_slot tp st en).2 = Except.error e) :
    (a.add_time_slot tp st en).1 = a := by
  unfold Actuator.add_time_slot at h ⊢
  cases h1 : tp.valid <;> simp [h1] at h ⊢
  cases h2 : a.valid_state st <;> simp [h2] at h ⊢
  cases hf : findOverlap tp a.timeslots <;> simp [hf] at h ⊢

theorem rts_err_eq (a : Actuator) (tsid : Nat) (e : RpcError)
    (h : (a.remove_time_slot tsid).2 = Except.error e) : (a.remove_time_slot tsid).1 = a := by
  unfold Actuator.remove_time_slot at h ⊢
  cases hl : lookupKey tsid a.timeslots with
  | some v => simp [hl] at h
  | none =>
    simp only [hl]
    rw [eraseKey_of_lookup_none hl]
    rfl

theorem tsstp_err_eq (a : Actuator) (tsid : Nat) (tp : TimePeriod) (e : RpcError)
    (h : (a.time_slot_set_time_period tsid tp).2 = Except.error e) :
    (a.time_slot_set_time_period tsid tp).1 = a := by
  unfold Actuator.time_slot_set_time_period at h ⊢
  cases hs : setPeriodScan tsid tp
      (Except.error (RpcError.InvalidArgument InvalArgError.TimeSlotId)) a.timeslots with
  | error e2 => simp [hs]
  | ok ts =>
    simp only [hs] at h ⊢
    cases hv : (mergePeriod ts.time_period tp).valid <;> simp [hv] at h ⊢

theorem tsse_err_eq (a : Actuator) (tsid : Nat) (en : Bool) (e : RpcError)
    (h : (a.time_slot_set_enabled tsid en).2 = Except.error e) :
    (a.time_slot_set_enabled tsid en).1 = a := by
  unfold Actuator.time_slot_set_enabled at h ⊢
  cases hl : lookupKey tsid a.timeslots with
  | none => simp [hl]
  | some v => simp [hl] at h

theorem tssas_err_eq (a : Actuator) (tsid : Nat) (st : ActuatorState) (e : RpcError)
    (h : (a.time_slot_set_actuator_state tsid st).2 = Except.error e) :
    (a.time_slot_set_actuator_state tsid st).1 = a := by
  unfold Actuator.time_slot_set_actuator_state at h ⊢
  cases hb : a.valid_state st <;> simp [hb] at h ⊢
  cases hl : lookupKey tsid a.timeslots with
  | none => simp [hl]
  | some v => simp [hl] at h

theorem tsato_err_eq (a : Actuator) (tsid : Nat) (tp : TimePeriod) (e : RpcError)
    (h : (a.time_slot_add_time_override tsid tp).2 = Except.error e) :
    (a.time_slot_add_time_override tsid tp).1 = a := by
  unfold Actuator.time_slot_add_time_override at h ⊢
  cases h1 : tp.valid <;> simp [h1] at h ⊢
  cases hs : addOverrideScan tsid tp none a.timeslots with
  | error e2 => simp [hs]
  | ok target =>
    cases target with
    | none => simp [hs]
    | some ts =>
      simp only [hs] at h ⊢
      cases hf : findDateOverlap tp ts.time_override <;> simp [hf] at h ⊢

theorem tsrto_err_eq (a : Actuator) (tsid oid : Nat) (e : RpcError)
    (h : (a.time_slot_remove_time_override tsid oid).2 = Except.error e) :
    (a.time_slot_remove_time_override tsid oid).1 = a := by
  unfold Actuator.time_slot_remove_time_override at h ⊢
  cases hl : lookupKey tsid a.timeslots with
  | none => simp [hl]
  | some ts =>
    simp only [hl] at h ⊢
    cases ho : lookupKey oid ts.time_override with
    | some v => simp [ho] at h
    | none =>
      have hf : (fun t => {t with time_override := eraseKey oid t.time_override}) ts = ts := by
        show ({ts with time_override := eraseKey oid ts.time_override}) = ts
        rw [eraseKey_of_lookup_none ho]
      have hupd := @updateKey_self TimeSlot tsid
        (fun t => {t with time_override := eraseKey oid t.time_override}) ts a.timeslots hl hf
      simp only [ho, Option.isSome_none, Bool.false_eq_true, if_false, hupd]

/-- C2: for every actuator and every mutator (`set_default_state`,
`add_time_slot`, `remove_time_slot`, `time_slot_set_time_period`,
`time_slot_set_enabled`, `time_slot_set_actuator_state`,
`time_slot_add_time_override`, `time_slot_remove_time_override`) and every
input, a call that returns an error leaves the actuator's entire
observable state (timeslots with their overrides, default state and both
id counters) equal to its state before the call. -/
theorem mutators_unchanged_on_error :
    (∀ (a : Actuator) (ds : ActuatorState) (e : RpcError),
      (a.set_default_state ds).2 = Except.error e → (a.set_default_state ds).1 = a) ∧
    (∀ (a : Actuator) (tp : TimePeriod) (st : ActuatorState) (en : Bool) (e : RpcError),
      (a.add_time_slot tp st en).2 = Except.error e → (a.add_time_slot tp st en).1 = a) ∧
    (∀ (a : Actuator) (tsid : Nat) (e : RpcError),
      (a.remove_time_slot tsid).2 = Except.error e → (a.remove_time_slot tsid).1 = a) ∧
    (∀ (a : Actuator) (tsid : Nat) (tp : TimePeriod) (e : RpcError),
      (a.time_slot_set_time_period tsid tp).2 = Except.error e →
        (a.time_slot_set_time_period tsid tp).1 = a) ∧
    (∀ (a : Actuator) (tsid : Nat) (en : Bool) (e : RpcError),
      (a.time_slot_set_enabled tsid en).2 = Except.error e →
        (a.time_slot_set_enabled tsid en).1 = a) ∧
    (∀ (a : Actuator) (tsid : Nat) (st : ActuatorState) (e : RpcError),
      (a.time_slot_set_actuator_state tsid st).2 = Except.error e →
        (a.time_slot_set_actuator_state tsid st).1 = a) ∧
    (∀ (a : Actuator) (tsid : Nat) (tp : TimePeriod) (e : RpcError),
      (a.time_slot_add_time_override tsid tp).2 = Except.error e →
        (a.time_slot_add_time_override tsid tp).1 = a) ∧
    (∀ (a : Actuator) (tsid oid : Nat) (e : RpcError),
      (a.time_slot_remove_time_override tsid oid).2 = Except.error e →
        (a.time_slot_remove_time_override tsid oid).1 = a) :=
  ⟨sds_err_eq, ats_err_eq, rts_err_eq, tsstp_err_eq, tsse_err_eq, tssas_err_eq,
    tsato_err_eq, tsrto_err_eq⟩

/-- Witness for C2 at a concrete input: removing an absent slot id from a
fresh actuator errors and leaves the actuator unchanged. -/
theorem mutators_unchanged_on_error_witness :
    ((Actuator.new infoT stOn).remove_time_slot 3).1 = Actuator.new infoT stOn :=
  mutators_unchanged_on_error.2.2.1 (Actuator.new infoT stOn) 3
    (RpcError.InvalidArgument InvalArgError.TimeSlotId) rfl

/-- C9: evaluation of the display forms.  `Toggle(true)` renders as "On",
the `Toggle` type as "Toggle" and the `FloatValue` type in the
"Float [min, max]" shape, as specified; but `Toggle(false)` renders as
"Off " with a trailing space (`actuator.rs` line 40), not the specified
"Off". -/
theorem display_eval :
    ActuatorState.display (ActuatorState.Toggle false) = "Off " ∧
    ("Off " : String) ≠ "Off" ∧
    ActuatorState.display (ActuatorState.Toggle true) = "On" ∧
    ActuatorType.display ActuatorType.Toggle = "Toggle" ∧
    ActuatorType.display (ActuatorType.FloatValue 0 100) =
      "Float [" ++ floatRepr 0 ++ ", " ++ floatRepr 100 ++ "]" := by
  refine ⟨rfl, ?_, rfl, rfl, rfl⟩
  decide

/-- C1: evaluation at the failing input.  The scan of
`time_slot_set_time_period` checks the other slots against the
caller-supplied partial period, not the proposed merged period: `slotA`
does not overlap the partial period `partialToA` (its sentinel date range
and empty weekday set intersect nothing), so the call on slot 1 succeeds
and commits a merged period that does overlap slot 0's base period — where
the claim demands failure with `TimeSlotOverlap 0`. -/
theorem set_time_period_partial_check_eval :
    TimeSlot.overlaps slotA partialToA = false ∧
    (actAB.time_slot_set_time_period 1 partialToA).2 = Except.ok () ∧
    (actAB.time_slot_set_time_period 1 partialToA).1.timeslots =
      [(0, slotA), (1, {slotB with time_period := mergePeriod periodB partialToA})] ∧
    TimePeriod.overlaps (mergePeriod periodB partialToA) periodA = true :=
  ⟨rfl, rfl, rfl, rfl⟩

/-- C3: `add_time_slot` with a valid period and state fails with
`TimeSlotOverlap` carrying the id of a pre-existing conflicting slot
exactly when some existing slot's base period overlaps the candidate
under rule 4.1; otherwise it inserts the slot under the current counter
value, increments the counter and returns that id.  Overlap is symmetric,
so two mutually overlapping periods conflict in either insertion order. -/
theorem add_time_slot_overlap_spec (a : Actuator) (tp : TimePeriod)
    (st : ActuatorState) (en : Bool) (hv : tp.valid = true)
    (hs : a.valid_state st = true) :
    ((∃ cid ts, (a.add_time_slot tp st en).2 = Except.error (RpcError.TimeSlotOverlap cid) ∧
        (cid, ts) ∈ a.timeslots ∧ ts.overlaps tp = true) ↔
      (∃ p ∈ a.timeslots, p.2.overlaps tp = true)) ∧
    ((∀ p ∈ a.timeslots, p.2.overlaps tp = false) →
      a.add_time_slot tp st en =
        ({a with
            timeslots := (insertKey a.next_timeslot_id (TimeSlot.new en st tp) a.timeslots),
            next_timeslot_id := ((a.next_timeslot_id + 1) % 4294967296)},
          Except.ok a.next_timeslot_id)) ∧
    (∀ p q : TimePeriod, p.overlaps q = q.overlaps p) := by
  refine ⟨⟨?_, ?_⟩, ?_, overlaps_comm⟩
  · rintro ⟨cid, ts, herr, hmem, hovt⟩
    exact ⟨(cid, ts), hmem, hovt⟩
  · intro hex
    cases hf : findOverlap tp a.timeslots with
    | none =>
      obtain ⟨p, hp, hovp⟩ := hex
      have hfalse := findOverlap_eq_none_iff.mp hf p hp
      rw [hovp] at hfalse
      exact absurd hfalse (by simp)
    | some j =>
      obtain ⟨ts, hmem, hovt⟩ := findOverlap_eq_some_mem hf
      refine ⟨j, ts, ?_, hmem, hovt⟩
      unfold Actuator.add_time_slot
      simp [hv, hs, hf]
  · intro hall
    have hf : findOverlap tp a.timeslots = none := findOverlap_eq_none_iff.mpr hall
    unfold Actuator.add_time_slot
    simp [hv, hs, hf]

/-- Witness for C3 at a concrete input: adding a weekday-disjoint period
to an actuator with one slot succeeds, returning the counter value. -/
theorem add_time_slot_overlap_spec_witness :
    act1.add_time_slot periodD stOn true =
      ({act1 with
          timeslots := (insertKey act1.next_timeslot_id (TimeSlot.new true stOn periodD) act1.timeslots),
          next_timeslot_id := ((act1.next_timeslot_id + 1) % 4294967296)},
        Except.ok act1.next_timeslot_id) :=
  (add_time_slot_overlap_spec act1 periodD stOn true (by decide) (by decide)).2.1 (by decide)

/-- C6: `time_slot_set_time_period` with the all-sentinel partial period
on an existing slot (whose stored period is valid, as every stored period
is) succeeds and leaves the whole actuator state unchanged. -/
theorem set_time_period_sentinel_noop (a : Actuator) (tsid : Nat) (ts : TimeSlot)
    (hwf : a.wf) (hlk : lookupKey tsid a.timeslots = some ts)
    (hv : ts.time_period.valid = true) :
    a.time_slot_set_time_period tsid sentinelPeriod = (a, Except.ok ()) := by
  have hscan := setPeriodScan_ok hwf hlk
    (fun p _ _ => overlaps_sentinel p.2)
    (Except.error (RpcError.InvalidArgument InvalArgError.TimeSlotId))
  unfold Actuator.time_slot_set_time_period
  simp only [hscan, mergePeriod_sentinel, hv, Bool.not_true, Bool.false_eq_true, if_false]
  have hupd := @updateKey_self TimeSlot tsid
    (fun t => {t with time_period := ts.time_period}) ts a.timeslots hlk rfl
  rw [hupd]

/-- Witness for C6 at a concrete input: the all-sentinel update on slot 0
of a two-slot actuator is a successful no-op. -/
theorem set_time_period_sentinel_noop_witness :
    actAB.time_slot_set_time_period 0 sentinelPeriod = (actAB, Except.ok ()) :=
  set_time_period_sentinel_noop actAB 0 slotA (by decide) rfl (by decide)

/-- C10: for `time_slot_set_time_period` and `time_slot_add_time_override`,
when the named slot id does not exist but the supplied period overlaps the
base period of some existing slot, the call returns `TimeSlotOverlap` with
a conflicting slot's id rather than the unknown-slot-id error (for the
override call, under the period-validity precondition checked first). -/
theorem overlap_precedes_unknown_id (a : Actuator) (tsid : Nat) (tp : TimePeriod)
    (habs : lookupKey tsid a.timeslots = none)
    (hov : ∃ p ∈ a.timeslots, p.2.overlaps tp = true) :
    (∃ cid ts2,
      (a.time_slot_set_time_period tsid tp).2 = Except.error (RpcError.TimeSlotOverlap cid) ∧
        (cid, ts2) ∈ a.timeslots ∧ ts2.overlaps tp = true) ∧
    (tp.valid = true →
      ∃ cid ts2,
        (a.time_slot_add_time_override tsid tp).2 = Except.error (RpcError.TimeSlotOverlap cid) ∧
          (cid, ts2) ∈ a.timeslots ∧ ts2.overlaps tp = true) := by
  have hne := lookup_none_forall habs
  have hex : ∃ p ∈ a.timeslots, p.1 ≠ tsid ∧ p.2.overlaps tp = true := by
    obtain ⟨p, hp, hovp⟩ := hov
    exact ⟨p, hp, hne p hp, hovp⟩
  constructor
  · obtain ⟨cid, ts2, hscan, hmem, hne2, hov2⟩ := setPeriodScan_error_of_overlap hex
      (Except.error (RpcError.InvalidArgument InvalArgError.TimeSlotId))
    refine ⟨cid, ts2, ?_, hmem, hov2⟩
    unfold Actuator.time_slot_set_time_period
    simp [hscan]
  · intro hv
    obtain ⟨cid, ts2, hscan, hmem, hne2, hov2⟩ := addOverrideScan_error_of_overlap hex none
    refine ⟨cid, ts2, ?_, hmem, hov2⟩
    unfold Actuator.time_slot_add_time_override
    simp [hv, hscan]

/-- Witness for C10 at a concrete input: updating the period of the
absent slot id 9 with a period overlapping slot 0 reports the overlap,
not the unknown id. -/
theorem overlap_precedes_unknown_id_witness :
    ∃ cid ts2,
      (act1.time_slot_set_time_period 9 periodA).2 = Except.error (RpcError.TimeSlotOverlap cid) ∧
        (cid, ts2) ∈ act1.timeslots ∧ ts2.overlaps periodA = true :=
  (overlap_precedes_unknown_id act1 9 periodA rfl ⟨(0, slotA), by decide, by decide⟩).1

/-- C4 counterexample: on `actC4` the candidate `tpX` is valid, the target
slot 1 exists, and its override `(5, ovC)` has a date-only overlap with
`tpX` (their time intervals are disjoint) — yet the call is rejected with
`TimeSlotOverlap 0`, not with `TimeOverrideOverlap`, because the scan of
the other slots runs first and slot 0's base period overlaps `tpX`. -/
theorem add_override_precedence_cex :
    tpX.valid = true ∧
    lookupKey 1 actC4.timeslots = some slotC ∧
    (5, ovC) ∈ slotC.time_override ∧
    ovC.overlaps_dates tpX = true ∧
    ovC.time_interval.intersects tpX.time_interval = false ∧
    (actC4.time_slot_add_time_override 1 tpX).2 = Except.error (RpcError.TimeSlotOverlap 0) ∧
    isOverrideOverlapErr (actC4.time_slot_add_time_override 1 tpX).2 = false := by
  refine ⟨rfl, rfl, ?_, rfl, rfl, rfl, rfl⟩
  decide

/-- C4 (amended): for a valid candidate and an existing target slot,
`time_slot_add_time_override` is rejected with `TimeSlotOverlap` whenever
the candidate overlaps (rule 4.1) another slot's base period — this check
runs first and takes precedence — and, when no such base overlap exists,
it is rejected with `TimeOverrideOverlap` of an existing override id
exactly when some override of the target slot has a date-only overlap
with the candidate; the date-only rule ignores time-of-day entirely and
is implied by rule 4.1, hence strictly stronger. -/
theorem add_override_reject_spec (a : Actuator) (tsid : Nat) (tp : TimePeriod)
    (ts : TimeSlot) (hwf : a.wf) (hv : tp.valid = true)
    (hlk : lookupKey tsid a.timeslots = some ts) :
    ((∃ p ∈ a.timeslots, p.1 ≠ tsid ∧ p.2.overlaps tp = true) →
      ∃ cid ts2,
        (a.time_slot_add_time_override tsid tp).2 = Except.error (RpcError.TimeSlotOverlap cid) ∧
          (cid, ts2) ∈ a.timeslots ∧ cid ≠ tsid ∧ ts2.overlaps tp = true) ∧
    ((∀ p ∈ a.timeslots, p.1 ≠ tsid → p.2.overlaps tp = false) →
      ((∃ q ∈ ts.time_override, q.2.overlaps_dates tp = true) ↔
        (∃ oid op,
          (a.time_slot_add_time_override tsid tp).2 = Except.error (RpcError.TimeOverrideOverlap oid) ∧
            (oid, op) ∈ ts.time_override ∧ op.overlaps_dates tp = true))) ∧
    (∀ p q : TimePeriod, p.overlaps q = true → p.overlaps_dates q = true) ∧
    (∀ p q : TimePeriod, ∀ t1 t2 : TimeInterval,
      TimePeriod.overlaps_dates ⟨t1, p.date_range, p.days⟩ ⟨t2, q.date_range, q.days⟩ =
        p.overlaps_dates q) := by
  refine ⟨?_, ?_, fun p q h => overlaps_dates_of_overlaps h, fun p q t1 t2 => rfl⟩
  · intro hex
    obtain ⟨cid, ts2, hscan, hmem, hne2, hov2⟩ := addOverrideScan_error_of_overlap hex none
    refine ⟨cid, ts2, ?_, hmem, hne2, hov2⟩
    unfold Actuator.time_slot_add_time_override
    simp [hv, hscan]
  · intro hall
    have hscan := addOverrideScan_ok hwf hlk hall none
    constructor
    · rintro ⟨q, hq, hovq⟩
      cases hfd : findDateOverlap tp ts.time_override with
      | none =>
        have hfalse := findDateOverlap_eq_none_iff.mp hfd q hq
        rw [hovq] at hfalse
        exact absurd hfalse (by simp)
      | some oid =>
        obtain ⟨op, hmem, hovd⟩ := findDateOverlap_eq_some_mem hfd
        refine ⟨oid, op, ?_, hmem, hovd⟩
        unfold Actuator.time_slot_add_time_override
        simp [hv, hscan, hfd]
    · rintro ⟨oid, op, herr, hmem, hovd⟩
      exact ⟨(oid, op), hmem, hovd⟩

/-- Witness for C4's amended theorem at a concrete input: with `slotC` the
only slot, adding `tpX` as an override of slot 1 is rejected with a
`TimeOverrideOverlap` of its existing override, although their time
intervals are disjoint. -/
theorem add_override_reject_spec_witness :
    ∃ oid op,
      (actCsolo.time_slot_add_time_override 1 tpX).2 = Except.error (RpcError.TimeOverrideOverlap oid) ∧
        (oid, op) ∈ slotC.time_override ∧ op.overlaps_dates tpX = true :=
  ((add_override_reject_spec actCsolo 1 tpX slotC (by decide) (by decide) rfl).2.1
    (by decide)).mp ⟨(5, ovC), by decide, by decide⟩

/-- C8: a `FloatValue` actuator type is valid exactly when `min < max`
(and `Toggle` always is); a `Toggle` actuator accepts both toggle states
and rejects every float state; a `FloatValue` actuator accepts exactly
the float states within its inclusive bounds and rejects every toggle
state; and `set_default_state`, `add_time_slot` (with a valid period) and
`time_slot_set_actuator_state` fail with the invalid-state error on a
rejected state. -/
theorem state_validity_spec :
    (∀ (nm : String) (mn mx : Rat),
      (ActuatorInfo.mk nm (ActuatorType.FloatValue mn mx)).valid = true ↔ mn < mx) ∧
    (∀ nm : String, (ActuatorInfo.mk nm ActuatorType.Toggle).valid = true) ∧
    (∀ a : Actuator, a.info.actuator_type = ActuatorType.Toggle →
      (∀ b, a.valid_state (ActuatorState.Toggle b) = true) ∧
      (∀ v, a.valid_state (ActuatorState.FloatValue v) = false)) ∧
    (∀ (a : Actuator) (mn mx : Rat), a.info.actuator_type = ActuatorType.FloatValue mn mx →
      (∀ v, (a.valid_state (ActuatorState.FloatValue v) = true ↔ (mn ≤ v ∧ v ≤ mx))) ∧
      (∀ b, a.valid_state (ActuatorState.Toggle b) = false)) ∧
    (∀ (a : Actuator) (st : ActuatorState), a.valid_state st = false →
      (a.set_default_state st).2 =
        Except.error (RpcError.InvalidArgument InvalArgError.ActuatorState)) ∧
    (∀ (a : Actuator) (tp : TimePeriod) (st : ActuatorState) (en : Bool),
      tp.valid = true → a.valid_state st = false →
      (a.add_time_slot tp st en).2 =
        Except.error (RpcError.InvalidArgument InvalArgError.ActuatorState)) ∧
    (∀ (a : Actuator) (tsid : Nat) (st : ActuatorState), a.valid_state st = false →
      (a.time_slot_set_actuator_state tsid st).2 =
        Except.error (RpcError.InvalidArgument InvalArgError.ActuatorState)) := by
  refine ⟨?_, fun nm => rfl, ?_, ?_, ?_, ?_, ?_⟩
  · intro nm mn mx
    simp [ActuatorInfo.valid]
  · intro a h
    constructor
    · intro b; simp [Actuator.valid_state, h]
    · intro v; simp [Actuator.valid_state, h]
  · intro a mn mx h
    constructor
    · intro v; simp [Actuator.valid_state, h]
    · intro b; simp [Actuator.valid_state, h]
  · intro a st h
    unfold Actuator.set_default_state
    simp [h]
  · intro a tp st en hv h
    unfold Actuator.add_time_slot
    simp [hv, h]
  · intro a tsid st h
    unfold Actuator.time_slot_set_actuator_state
    simp [h]

/-- Witness for C8 at concrete inputs: a `FloatValue 0 100` actuator's
acceptance of `150` reduces to the bounds check (which fails), and
setting a toggle default on it fails with the invalid-state error. -/
theorem state_validity_spec_witness :
    ((Actuator.new infoF (ActuatorState.FloatValue 20)).valid_state
        (ActuatorState.FloatValue 150) = true ↔ ((0 : Rat) ≤ 150 ∧ (150 : Rat) ≤ 100)) ∧
    ((Actuator.new infoF (ActuatorState.FloatValue 20)).set_default_state
        (ActuatorState.Toggle true)).2 =
      Except.error (RpcError.InvalidArgument InvalArgError.ActuatorState) :=
  ⟨(state_validity_spec.2.2.2.1 (Actuator.new infoF (ActuatorState.FloatValue 20)) 0 100 rfl).1 150,
    state_validity_spec.2.2.2.2.1 (Actuator.new infoF (ActuatorState.FloatValue 20))
      (ActuatorState.Toggle true) (by decide)⟩

theorem counterInv_update_sub {a : Actuator} {k : Nat} (f : TimeSlot → TimeSlot)
    (hf : ∀ t, ∀ q ∈ (f t).time_override, q ∈ t.time_override) (h : a.counterInv) :
    (∀ p ∈ updateKey k f a.timeslots, p.1 < a.next_timeslot_id) ∧
    (∀ p ∈ updateKey k f a.timeslots, ∀ q ∈ p.2.time_override, q.1 < a.next_override_id) := by
  constructor
  · intro p hp
    rcases updateKey_mem hp with ⟨w, hw, hp2⟩ | hp2
    · subst hp2; exact h.1 (k, w) hw
    · exact h.1 p hp2
  · intro p hp q hq
    rcases updateKey_mem hp with ⟨w, hw, hp2⟩ | hp2
    · subst hp2
      exact h.2 (k, w) hw q (hf w q hq)
    · exact h.2 p hp2 q hq

theorem counterInv_new (info : ActuatorInfo) (ds : ActuatorState) :
    (Actuator.new info ds).counterInv := by
  constructor <;> intro p hp <;> simp [Actuator.new] at hp

theorem counterInv_sds (a : Actuator) (ds : ActuatorState) (h : a.counterInv) :
    ((a.set_default_state ds).1).counterInv := by
  unfold Actuator.set_default_state
  cases hb : a.valid_state ds <;> simp <;> exact h

theorem counterInv_ats (a : Actuator) (tp : TimePeriod) (st : ActuatorState) (en : Bool)
    (hw : a.next_timeslot_id + 1 < 4294967296) (h : a.counterInv) :
    ((a.add_time_slot tp st en).1).counterInv := by
  unfold Actuator.add_time_slot
  cases h1 : tp.valid with
  | false => simpa using h
  | true =>
  cases h2 : a.valid_state st with
  | false => simpa using h
  | true =>
  simp only [Bool.not_true, Bool.false_eq_true, if_false]
  cases hf : findOverlap tp a.timeslots with
  | some j => simpa using h
  | none =>
    have hmod : (a.next_timeslot_id + 1) % 4294967296 = a.next_timeslot_id + 1 :=
      Nat.mod_eq_of_lt hw
    refine ⟨?_, ?_⟩
    · intro p hp
      rw [hmod]
      rcases insertKey_mem hp with hp2 | hp2
      · subst hp2; simp
      · exact Nat.lt_succ_of_lt (h.1 p hp2)
    · intro p hp q hq
      rcases insertKey_mem hp with hp2 | hp2
      · subst hp2; simp [TimeSlot.new] at hq
      · exact h.2 p hp2 q hq

theorem counterInv_rts (a : Actuator) (tsid : Nat) (h : a.counterInv) :
    ((a.remove_time_slot tsid).1).counterInv := by
  unfold Actuator.remove_time_slot
  cases hl : (lookupKey tsid a.timeslots).isSome <;>
    simp <;>
    exact ⟨fun p hp => h.1 p (eraseKey_mem hp),
      fun p hp q hq => h.2 p (eraseKey_mem hp) q hq⟩

theorem counterInv_tsstp (a : Actuator) (tsid : Nat) (tp : TimePeriod) (h : a.counterInv) :
    ((a.time_slot_set_time_period tsid tp).1).counterInv := by
  unfold Actuator.time_slot_set_time_period
  cases hs : setPeriodScan tsid tp
      (Except.error (RpcError.InvalidArgument InvalArgError.TimeSlotId)) a.timeslots with
  | error e2 => simpa using h
  | ok ts =>
    cases hv : (mergePeriod ts.time_period tp).valid with
    | false => simpa [hv] using h
    | true =>
      simp only [hv, Bool.not_true, Bool.false_eq_true, if_false]
      exact counterInv_update_sub _ (fun t q hq => hq) h

theorem counterInv_tsse (a : Actuator) (tsid : Nat) (en : Bool) (h : a.counterInv) :
    ((a.time_slot_set_enabled tsid en).1).counterInv := by
  unfold Actuator.time_slot_set_enabled
  cases hl : lookupKey tsid a.timeslots with
  | none => simpa using h
  | some v =>
    simp only []
    exact counterInv_update_sub _ (fun t q hq => hq) h

theorem counterInv_tssas (a : Actuator) (tsid : Nat) (st : ActuatorState) (h : a.counterInv) :
    ((a.time_slot_set_actuator_state tsid st).1).counterInv := by
  unfold Actuator.time_slot_set_actuator_state
  cases hb : a.valid_state st with
  | false => simpa using h
  | true =>
    simp only [Bool.not_true, Bool.false_eq_true, if_false]
    cases hl : lookupKey tsid a.timeslots with
    | none => simpa using h
    | some v =>
      simp only []
      exact counterInv_update_sub _ (fun t q hq => hq) h

theorem counterInv_tsato (a : Actuator) (tsid : Nat) (tp : TimePeriod)
    (hw : a.next_override_id + 1 < 4294967296) (h : a.counterInv) :
    ((a.time_slot_add_time_override tsid tp).1).counterInv := by
  unfold Actuator.time_slot_add_time_override
  cases h1 : tp.valid with
  | false => simpa using h
  | true =>
  simp only [Bool.not_true, Bool.false_eq_true, if_false]
  cases hs : addOverrideScan tsid tp none a.timeslots with
  | error e2 => simpa using h
  | ok target =>
    cases target with
    | none => simpa using h
    | some ts =>
      simp only []
      cases hf : findDateOverlap tp ts.time_override with
      | some oid => simpa using h
      | none =>
        have hmod : (a.next_override_id + 1) % 4294967296 = a.next_override_id + 1 :=
          Nat.mod_eq_of_lt hw
        refine ⟨?_, ?_⟩
        · intro p hp
          rcases updateKey_mem hp with ⟨w, hw2, hp2⟩ | hp2
          · subst hp2; exact h.1 (tsid, w) hw2
          · exact h.1 p hp2
        · intro p hp q hq
          rw [hmod]
          rcases updateKey_mem hp with ⟨w, hw2, hp2⟩ | hp2
          · subst hp2
            rcases insertKey_mem hq with hq2 | hq2
            · subst hq2; exact Nat.lt_succ_self _
            · exact Nat.lt_succ_of_lt (h.2 (tsid, w) hw2 q hq2)
          · exact Nat.lt_succ_of_lt (h.2 p hp2 q hq)

theorem counterInv_tsrto (a : Actuator) (tsid oid : Nat) (h : a.counterInv) :
    ((a.time_slot_remove_time_override tsid oid).1).counterInv := by
  unfold Actuator.time_slot_remove_time_override
  cases hl : lookupKey tsid a.timeslots with
  | none => simpa using h
  | some ts =>
    cases ho : (lookupKey oid ts.time_override).isSome with
    | true =>
      simp only [ho, if_true]
      exact counterInv_update_sub _ (fun t q hq => eraseKey_mem hq) h
    | false =>
      simp only [ho, Bool.false_eq_true, if_false]
      exact counterInv_update_sub _ (fun t q hq => eraseKey_mem hq) h

theorem ats_fresh (a : Actuator) (tp : TimePeriod) (st : ActuatorState) (en : Bool) (i : Nat)
    (hw : a.next_timeslot_id + 1 < 4294967296) (h : a.counterInv)
    (hok : (a.add_time_slot tp st en).2 = Except.ok i) :
    i = a.next_timeslot_id ∧ lookupKey i a.timeslots = none ∧
    (a.add_time_slot tp st en).1.next_timeslot_id = i + 1 := by
  unfold Actuator.add_time_slot at hok ⊢
  cases h1 : tp.valid with
  | false => simp [h1] at hok
  | true =>
  cases h2 : a.valid_state st with
  | false => simp [h1, h2] at hok
  | true =>
  simp only [h1, h2, Bool.not_true, Bool.false_eq_true, if_false] at hok ⊢
  cases hf : findOverlap tp a.timeslots with
  | some j => simp [hf] at hok
  | none =>
    simp only [hf] at hok ⊢
    simp at hok
    subst hok
    refine ⟨rfl, ?_, Nat.mod_eq_of_lt hw⟩
    exact forall_ne_lookup_none (fun p hp => Nat.ne_of_lt (h.1 p hp))

theorem tsato_fresh (a : Actuator) (tsid : Nat) (tp : TimePeriod) (oid2 : Nat)
    (hw : a.next_override_id + 1 < 4294967296) (h : a.counterInv)
    (hok : (a.time_slot_add_time_override tsid tp).2 = Except.ok oid2) :
    oid2 = a.next_override_id ∧
    (∀ p ∈ a.timeslots, lookupKey oid2 p.2.time_override = none) ∧
    (a.time_slot_add_time_override tsid tp).1.next_override_id = oid2 + 1 := by
  unfold Actuator.time_slot_add_time_override at hok ⊢
  cases h1 : tp.valid with
  | false => simp [h1] at hok
  | true =>
  simp only [h1, Bool.not_true, Bool.false_eq_true, if_false] at hok ⊢
  cases hs : addOverrideScan tsid tp none a.timeslots with
  | error e2 => simp [hs] at hok
  | ok target =>
    cases target with
    | none => simp [hs] at hok
    | some ts =>
      simp only [hs] at hok ⊢
      cases hf : findDateOverlap tp ts.time_override with
      | some oid => simp [hf] at hok
      | none =>
        simp only [hf] at hok ⊢
        simp at hok
        subst hok
        refine ⟨rfl, ?_, Nat.mod_eq_of_lt hw⟩
        intro p hp
        exact forall_ne_lookup_none (fun q hq => Nat.ne_of_lt (h.2 p hp q hq))

theorem mono_sds (a : Actuator) (ds : ActuatorState) :
    a.next_timeslot_id ≤ (a.set_default_state ds).1.next_timeslot_id ∧
    a.next_override_id ≤ (a.set_default_state ds).1.next_override_id := by
  unfold Actuator.set_default_state
  cases hb : a.valid_state ds <;> simp

theorem mono_ats (a : Actuator) (tp : TimePeriod) (st : ActuatorState) (en : Bool)
    (hw : a.next_timeslot_id + 1 < 4294967296) :
    a.next_timeslot_id ≤ (a.add_time_slot tp st en).1.next_timeslot_id ∧
    a.next_override_id ≤ (a.add_time_slot tp st en).1.next_override_id := by
  unfold Actuator.add_time_slot
  cases h1 : tp.valid <;> cases h2 : a.valid_state st <;>
    cases hf : findOverlap tp a.timeslots <;> simp [hf, Nat.mod_eq_of_lt hw]

theorem mono_rts (a : Actuator) (tsid : Nat) :
    a.next_timeslot_id ≤ (a.remove_time_slot tsid).1.next_timeslot_id ∧
    a.next_override_id ≤ (a.remove_time_slot tsid).1.next_override_id := by
  unfold Actuator.remove_time_slot
  cases hl : (lookupKey tsid a.timeslots).isSome <;> simp [hl]

theorem mono_tsstp (a : Actuator) (tsid : Nat) (tp : TimePeriod) :
    a.next_timeslot_id ≤ (a.time_slot_set_time_period tsid tp).1.next_timeslot_id ∧
    a.next_override_id ≤ (a.time_slot_set_time_period tsid tp).1.next_override_id := by
  unfold Actuator.time_slot_set_time_period
  cases hs : setPeriodScan tsid tp
      (Except.error (RpcError.InvalidArgument InvalArgError.TimeSlotId)) a.timeslots with
  | error e2 => simp
  | ok ts => cases hv : (mergePeriod ts.time_period tp).valid <;> simp [hv]

theorem mono_tsse (a : Actuator) (tsid : Nat) (en : Bool) :
    a.next_timeslot_id ≤ (a.time_slot_set_enabled tsid en).1.next_timeslot_id ∧
    a.next_override_id ≤ (a.time_slot_set_enabled tsid en).1.next_override_id := by
  unfold Actuator.time_slot_set_enabled
  cases hl : lookupKey tsid a.timeslots <;> simp

theorem mono_tssas (a : Actuator) (tsid : Nat) (st : ActuatorState) :
    a.next_timeslot_id ≤ (a.time_slot_set_actuator_state tsid st).1.next_timeslot_id ∧
    a.next_override_id ≤ (a.time_slot_set_actuator_state tsid st).1.next_override_id := by
  unfold Actuator.time_slot_set_actuator_state
  cases hb : a.valid_state st <;> cases hl : lookupKey tsid a.timeslots <;> simp [hl]

theorem mono_tsato (a : Actuator) (tsid : Nat) (tp : TimePeriod)
    (hw : a.next_override_id + 1 < 4294967296) :
    a.next_timeslot_id ≤ (a.time_slot_add_time_override tsid tp).1.next_timeslot_id ∧
    a.next_override_id ≤ (a.time_slot_add_time_override tsid tp).1.next_override_id := by
  unfold Actuator.time_slot_add_time_override
  cases h1 : tp.valid with
  | false => simp
  | true =>
    simp only [Bool.not_true, Bool.false_eq_true, if_false]
    cases hs : addOverrideScan tsid tp none a.timeslots with
    | error e2 => simp
    | ok target =>
      cases target with
      | none => simp
      | some ts =>
        simp only []
        cases hf : findDateOverlap tp ts.time_override <;> simp [Nat.mod_eq_of_lt hw]

theorem mono_tsrto (a : Actuator) (tsid oid : Nat) :
    a.next_timeslot_id ≤ (a.time_slot_remove_time_override tsid oid).1.next_timeslot_id ∧
    a.next_override_id ≤ (a.time_slot_remove_time_override tsid oid).1.next_override_id := by
  unfold Actuator.time_slot_remove_time_override
  cases hl : lookupKey tsid a.timeslots with
  | none => simp
  | some ts => cases ho : (lookupKey oid ts.time_override).isSome <;> simp [ho]

theorem addRemoveCycle_eq (c : Nat) :
    addRemoveCycle ⟨infoT, [], stOn, c, 0⟩ = ⟨infoT, [], stOn, (c + 1) % 4294967296, 0⟩ := by
  have hadd : (Actuator.mk infoT [] stOn c 0).add_time_slot periodA stOn true =
      (⟨infoT, [(c, TimeSlot.new true stOn periodA)], stOn, (c + 1) % 4294967296, 0⟩,
        Except.ok c) := rfl
  unfold addRemoveCycle
  rw [hadd]
  unfold Actuator.remove_time_slot
  simp [lookupKey, eraseKey]

theorem addRemoveIter_eq (n : Nat) :
    addRemoveIter n = ⟨infoT, [], stOn, n % 4294967296, 0⟩ := by
  induction n with
  | zero => rfl
  | succ n ih =>
    show addRemoveCycle (addRemoveIter n) = _
    rw [ih, addRemoveCycle_eq]
    have hmod : (n % 4294967296 + 1) % 4294967296 = (n + 1) % 4294967296 := by omega
    rw [hmod]

/-- C7 counterexample: the id counters are `u32` and wrap.  Starting from
a fresh actuator, the first successful `add_time_slot` returns id 0;
after 2^32 add/remove round trips (each an API call sequence, so the
state is reachable) the timeslot counter has wrapped back to 0 and the
next successful `add_time_slot` returns id 0 again — an id reused after
its slot was deleted, refuting lifetime strict increase.  Stopping one
round trip earlier and adding once more yields a reachable state whose
slot key 2^32 − 1 is not below `next_timeslot_id = 0`, refuting the
claimed invariant itself. -/
theorem id_counters_wrap_cex :
    ((Actuator.new infoT stOn).add_time_slot periodA stOn true).2 = Except.ok 0 ∧
    ((addRemoveIter 4294967296).add_time_slot periodA stOn true).2 = Except.ok 0 ∧
    ((addRemoveIter 4294967295).add_time_slot periodA stOn true).1 =
      ⟨infoT, [(4294967295, TimeSlot.new true stOn periodA)], stOn, 0, 0⟩ ∧
    ¬ (Actuator.mk infoT [(4294967295, TimeSlot.new true stOn periodA)] stOn 0 0).counterInv := by
  refine ⟨rfl, ?_, ?_, ?_⟩
  · rw [addRemoveIter_eq, Nat.mod_self]
    rfl
  · rw [addRemoveIter_eq, Nat.mod_eq_of_lt (by norm_num)]
    rfl
  · intro hinv
    have hlt := hinv.1 (4294967295, TimeSlot.new true stOn periodA) (List.mem_cons_self _ _)
    exact absurd hlt (by simp)

/-- C7 (amended): every slot key is strictly below `next_timeslot_id` and
every override key strictly below `next_override_id` — the invariant
holds for a fresh actuator and is preserved by every mutator as long as
the incremented counter has not wrapped (the counters are `u32`, so this
covers the first 2^32 allocations of each kind; past that point the
wrap-around refuted by the counterexample occurs); both counters never
decrease under any mutator below the wrap bound; and under the
invariant, a successful `add_time_slot` (resp.
`time_slot_add_time_override`) returns the current counter value — a key
not present anywhere — and, below the wrap bound, bumps the counter by
one, so the ids handed out are strictly increasing and never reused
until the respective counter has served 2^32 allocations. -/
theorem id_counters_monotone :
    (∀ (info : ActuatorInfo) (ds : ActuatorState), (Actuator.new info ds).counterInv) ∧
    (∀ (a : Actuator) (ds : ActuatorState), a.counterInv →
      ((a.set_default_state ds).1).counterInv) ∧
    (∀ (a : Actuator) (tp : TimePeriod) (st : ActuatorState) (en : Bool),
      a.next_timeslot_id + 1 < 4294967296 → a.counterInv →
      ((a.add_time_slot tp st en).1).counterInv) ∧
    (∀ (a : Actuator) (tsid : Nat), a.counterInv → ((a.remove_time_slot tsid).1).counterInv) ∧
    (∀ (a : Actuator) (tsid : Nat) (tp : TimePeriod), a.counterInv →
      ((a.time_slot_set_time_period tsid tp).1).counterInv) ∧
    (∀ (a : Actuator) (tsid : Nat) (en : Bool), a.counterInv →
      ((a.time_slot_set_enabled tsid en).1).counterInv) ∧
    (∀ (a : Actuator) (tsid : Nat) (st : ActuatorState), a.counterInv →
      ((a.time_slot_set_actuator_state tsid st).1).counterInv) ∧
    (∀ (a : Actuator) (tsid : Nat) (tp : TimePeriod),
      a.next_override_id + 1 < 4294967296 → a.counterInv →
      ((a.time_slot_add_time_override tsid tp).1).counterInv) ∧
    (∀ (a : Actuator) (tsid oid : Nat), a.counterInv →
      ((a.time_slot_remove_time_override tsid oid).1).counterInv) ∧
    (∀ (a : Actuator) (tp : TimePeriod) (st : ActuatorState) (en : Bool) (i : Nat),
      a.next_timeslot_id + 1 < 4294967296 → a.counterInv →
      (a.add_time_slot tp st en).2 = Except.ok i →
      i = a.next_timeslot_id ∧ lookupKey i a.timeslots = none ∧
      (a.add_time_slot tp st en).1.next_timeslot_id = i + 1) ∧
    (∀ (a : Actuator) (tsid : Nat) (tp : TimePeriod) (oid2 : Nat),
      a.next_override_id + 1 < 4294967296 → a.counterInv →
      (a.time_slot_add_time_override tsid tp).2 = Except.ok oid2 →
      oid2 = a.next_override_id ∧
      (∀ p ∈ a.timeslots, lookupKey oid2 p.2.time_override = none) ∧
      (a.time_slot_add_time_override tsid tp).1.next_override_id = oid2 + 1) ∧
    (∀ (a : Actuator) (ds : ActuatorState),
      a.next_timeslot_id ≤ (a.set_default_state ds).1.next_timeslot_id ∧
      a.next_override_id ≤ (a.set_default_state ds).1.next_override_id) ∧
    (∀ (a : Actuator) (tp : TimePeriod) (st : ActuatorState) (en : Bool),
      a.next_timeslot_id + 1 < 4294967296 →
      a.next_timeslot_id ≤ (a.add_time_slot tp st en).1.next_timeslot_id ∧
      a.next_override_id ≤ (a.add_time_slot tp st en).1.next_override_id) ∧
    (∀ (a : Actuator) (tsid : Nat),
      a.next_timeslot_id ≤ (a.remove_time_slot tsid).1.next_timeslot_id ∧
      a.next_override_id ≤ (a.remove_time_slot tsid).1.next_override_id) ∧
    (∀ (a : Actuator) (tsid : Nat) (tp : TimePeriod),
      a.next_timeslot_id ≤ (a.time_slot_set_time_period tsid tp).1.next_timeslot_id ∧
      a.next_override_id ≤ (a.time_slot_set_time_period tsid tp).1.next_override_id) ∧
    (∀ (a : Actuator) (tsid : Nat) (en : Bool),
      a.next_timeslot_id ≤ (a.time_slot_set_enabled tsid en).1.next_timeslot_id ∧
      a.next_override_id ≤ (a.time_slot_set_enabled tsid en).1.next_override_id) ∧
    (∀ (a : Actuator) (tsid : Nat) (st : ActuatorState),
      a.next_timeslot_id ≤ (a.time_slot_set_actuator_state tsid st).1.next_timeslot_id ∧
      a.next_override_id ≤ (a.time_slot_set_actuator_state tsid st).1.next_override_id) ∧
    (∀ (a : Actuator) (tsid : Nat) (tp : TimePeriod),
      a.next_override_id + 1 < 4294967296 →
      a.next_timeslot_id ≤ (a.time_slot_add_time_override tsid tp).1.next_timeslot_id ∧
      a.next_override_id ≤ (a.time_slot_add_time_override tsid tp).1.next_override_id) ∧
    (∀ (a : Actuator) (tsid oid : Nat),
      a.next_timeslot_id ≤ (a.time_slot_remove_time_override tsid oid).1.next_timeslot_id ∧
      a.next_override_id ≤ (a.time_slot_remove_time_override tsid oid).1.next_override_id) :=
  ⟨counterInv_new, counterInv_sds, counterInv_ats, counterInv_rts, counterInv_tsstp,
    counterInv_tsse, counterInv_tssas, counterInv_tsato, counterInv_tsrto,
    ats_fresh, tsato_fresh, mono_sds, mono_ats, mono_rts, mono_tsstp, mono_tsse,
    mono_tssas, mono_tsato, mono_tsrto⟩

/-- Witness for C7's amended theorem at a concrete input: on `act1`
(counter 1, no wrap, invariant holds by computation) a successful
`add_time_slot` returns 1, a fresh key, and bumps the counter to 2; the
invariant is preserved. -/
theorem id_counters_monotone_witness :
    (1 = act1.next_timeslot_id ∧ lookupKey 1 act1.timeslots = none ∧
      (act1.add_time_slot periodD stOn true).1.next_timeslot_id = 1 + 1) ∧
    ((act1.add_time_slot periodD stOn true).1).counterInv :=
  ⟨id_counters_monotone.2.2.2.2.2.2.2.2.2.1 act1 periodD stOn true 1 (by decide) (by decide) rfl,
    id_counters_monotone.2.2.1 act1 periodD stOn true (by decide) (by decide)⟩

end Servo
